import Mathlib

/-!
Verification development for the waypositor compositor display engine
(`src/compositor.cpp`).  The C++ code is shallowly embedded: libdrm, GBM and
EGL query results are modelled as explicit inputs, machine pointers as
natural numbers (`0` plays the role of `nullptr`), and each member function
as a pure state transformer that additionally returns the list of
`gbm_surface_release_buffer` calls it performs.
-/

namespace Waypositor

/-- `drmModeModeInfo`, restricted to the fields the engine reads:
`hdisplay`, `vdisplay`, `vrefresh` and the `type` flag word. -/
structure Mode where
  hdisplay : Nat
  vdisplay : Nat
  vrefresh : Nat
  type : Nat
deriving DecidableEq, Repr

/-- `DRM_MODE_TYPE_PREFERRED` is bit 3 of `drmModeModeInfo::type`. -/
def DRM_MODE_TYPE_PREFERRED : Nat := 8

/-- The test `mode.type & DRM_MODE_TYPE_PREFERRED` from
`drm::Connector::find_best_mode`. -/
def Mode.preferredFlag (m : Mode) : Bool :=
  (m.type &&& DRM_MODE_TYPE_PREFERRED) != 0

/-- `int area = mode.hdisplay * mode.vdisplay;` -/
def Mode.area (m : Mode) : Nat := m.hdisplay * m.vdisplay

/-- The loop body of `drm::Connector::find_best_mode`
(src/compositor.cpp:183-197): `result` is the best candidate so far
and `biggest_area` the running maximum; a mode with the preferred flag
is returned immediately. -/
def findBestModeGo : List Mode → Option Mode → Nat → Option Mode
  | [], result, _ => result
  | m :: rest, result, biggest_area =>
    if m.preferredFlag then some m
    else if m.area > biggest_area then findBestModeGo rest (some m) m.area
    else findBestModeGo rest result biggest_area

/-- `drm::Connector::find_best_mode`, with the connector's mode array as
input (in connector-reported order). -/
def find_best_mode (modes : List Mode) : Option Mode :=
  findBestModeGo modes none 0

/-- The leading maximum of the areas of a mode list. -/
def maxModeArea (ms : List Mode) : Nat :=
  ms.foldr (fun m acc => max m.area acc) 0

/-- Declarative description of `find_best_mode` (used to state the
characterization): the first preferred mode if any; otherwise the first
mode reaching the maximal area, provided that maximum is positive. -/
def bestModeSpec (ms : List Mode) : Option Mode :=
  match ms.find? Mode.preferredFlag with
  | some m => some m
  | none =>
    if maxModeArea ms = 0 then none
    else ms.find? (fun m => m.area == maxModeArea ms)

lemma maxModeArea_cons (m : Mode) (ms : List Mode) :
    maxModeArea (m :: ms) = max m.area (maxModeArea ms) := rfl

lemma findBestModeGo_eq :
    ∀ (ms : List Mode) (r : Option Mode) (b : Nat),
      findBestModeGo ms r b =
        match ms.find? Mode.preferredFlag with
        | some m => some m
        | none =>
          if b < maxModeArea ms then
            ms.find? (fun m => m.area == maxModeArea ms)
          else r
  | [], r, b => by
    simp [findBestModeGo, maxModeArea, List.find?]
  | m :: rest, r, b => by
    by_cases hp : m.preferredFlag
    · rw [findBestModeGo, if_pos hp]
      simp [List.find?_cons_of_pos _ hp]
    · rw [findBestModeGo, if_neg hp,
        List.find?_cons_of_neg _ hp]
      by_cases ha : m.area > b
      · rw [if_pos ha, findBestModeGo_eq rest (some m) m.area]
        cases hfind : rest.find? Mode.preferredFlag with
        | some p => simp
        | none =>
          simp only
          have hb : b < maxModeArea (m :: rest) :=
            lt_of_lt_of_le ha (by rw [maxModeArea_cons]; exact le_max_left _ _)
          rw [if_pos hb]
          by_cases hM : m.area < maxModeArea rest
          · have hmax : maxModeArea (m :: rest) = maxModeArea rest := by
              rw [maxModeArea_cons]; exact max_eq_right (le_of_lt hM)
            rw [if_pos hM, hmax,
              List.find?_cons_of_neg _ (by simp [Nat.ne_of_lt hM])]
          · have hmax : maxModeArea (m :: rest) = m.area := by
              rw [maxModeArea_cons]; exact max_eq_left (not_lt.mp hM)
            rw [if_neg hM, hmax, List.find?_cons_of_pos _ (by simp)]
      · rw [if_neg ha, findBestModeGo_eq rest r b]
        cases hfind : rest.find? Mode.preferredFlag with
        | some p => simp
        | none =>
          simp only
          have hab : m.area ≤ b := not_lt.mp ha
          by_cases hM : b < maxModeArea rest
          · have hb : b < maxModeArea (m :: rest) :=
              lt_of_lt_of_le hM (by rw [maxModeArea_cons]; exact le_max_right _ _)
            have hmax : maxModeArea (m :: rest) = maxModeArea rest := by
              rw [maxModeArea_cons]
              exact max_eq_right (le_trans hab (le_of_lt hM))
            rw [if_pos hM, if_pos hb, hmax,
              List.find?_cons_of_neg _
                (by simp [Nat.ne_of_lt (lt_of_le_of_lt hab hM)])]
          · have hb : ¬ b < maxModeArea (m :: rest) := by
              rw [maxModeArea_cons]
              exact not_lt.mpr (max_le hab (not_lt.mp hM))
            rw [if_neg hM, if_neg hb]

/-- Claim C6 (amended): `find_best_mode` returns the first mode flagged
preferred in connector order when one exists; otherwise it returns the
first mode in connector order whose `hdisplay * vdisplay` area is maximal,
provided that maximum is positive, and `none` when every mode has zero
area (in particular on an empty list).  Refresh rate is never consulted;
ties among equal-area modes go to the earlier mode. -/
theorem find_best_mode_characterization (ms : List Mode) :
    find_best_mode ms = bestModeSpec ms := by
  rw [find_best_mode, findBestModeGo_eq, bestModeSpec]
  cases ms.find? Mode.preferredFlag with
  | some m => rfl
  | none =>
    simp only
    by_cases h : maxModeArea ms = 0
    · simp [h]
    · rw [if_pos (Nat.pos_of_ne_zero h), if_neg h]

/-- Claim C6 counterexample: two equal-area modes with different refresh
rates, neither preferred.  The claim requires the 144 Hz mode (refresh
rate descending as tie break); the code returns the 60 Hz one because it
only performs a strict area comparison in connector order. -/
theorem find_best_mode_tie_counterexample :
    find_best_mode [⟨100, 100, 60, 0⟩, ⟨100, 100, 144, 0⟩]
      = some ⟨100, 100, 60, 0⟩ ∧
    (⟨100, 100, 60, 0⟩ : Mode) ≠ ⟨100, 100, 144, 0⟩ := by
  exact ⟨rfl, by decide⟩

/-! ## DeviceManager: hotplug reconciliation and CRTC assignment

`drm::Resources` snapshots and the per-id libdrm queries
(`drmModeGetConnector`, `drmModeGetEncoder`) are modelled as explicit
inputs.  `Display::create` only consults GBM/EGL (its `crtc_id` argument
is merely stored), so its success is a function of the connector whose
best mode supplies the dimensions. -/

/-- A `drm::Resources` snapshot: connector ids and the positional CRTC id
array (src/compositor.cpp:205-229). -/
structure Resources where
  connectors : List Nat
  crtcs : List Nat
deriving DecidableEq, Repr

/-- Results of the per-id libdrm/GBM/EGL calls the manager performs while
reconciling, fixed for the duration of one (or more) snapshots. -/
structure DrmDevice where
  /-- `drmModeGetConnector` succeeds for this id. -/
  connOk : Nat → Bool
  /-- `connector->connection == DRM_MODE_CONNECTED`. -/
  connected : Nat → Bool
  /-- `connector->encoders`, in reported order. -/
  connEncoders : Nat → List Nat
  /-- `connector->modes`, in reported order. -/
  connModes : Nat → List Mode
  /-- `drmModeGetEncoder` succeeds for this id. -/
  encOk : Nat → Bool
  /-- `encoder->possible_crtcs` bitmask. -/
  possibleCrtcs : Nat → Nat
  /-- `Display::create` (GBM surface + EGL child context) succeeds for the
  display of this connector. -/
  createOk : Nat → Bool

/-- `drm::Encoder::has_crtc`: `possible_crtcs & (1 << index)`
(src/compositor.cpp:143-145). -/
def hasCrtc (possible : Nat) (index : Nat) : Bool :=
  possible.testBit index

/-- `DeviceManager`'s mutable reconciliation state: `mDisplayLookup`
(a `Display` is represented by its assigned CRTC id, the only field the
reconciliation logic reads back) and `mUnusedCrtcs`. -/
structure DeviceManager where
  displayLookup : List (Nat × Nat)
  unusedCrtcs : Finset Nat
deriving DecidableEq

/-- `std::map::find` on the connector-id-keyed display map. -/
def lookupD : List (Nat × Nat) → Nat → Option Nat
  | [], _ => none
  | (k, v) :: rest, c => if k = c then some v else lookupD rest c

/-- `std::map::erase` of the entry for key `c` (keys are unique in every
state the code builds, so removing all occurrences coincides). -/
def eraseD (d : List (Nat × Nat)) (c : Nat) : List (Nat × Nat) :=
  d.filter (fun p => p.1 != c)

/-- The inner CRTC loop of `DeviceManager::find_crtc_for_connector`
(src/compositor.cpp:986-991): iterate `resources.crtcs()` positionally
with index `i`.  Note the faithful rendering of the source's test
`bool unused = mUnusedCrtcs.find(crtc_id) == mUnusedCrtcs.end()`, which
is `true` exactly when `crtc_id` is NOT a member of `mUnusedCrtcs`. -/
def crtcScan (mask : Nat) (u : Finset Nat) : Nat → List Nat → Option Nat
  | _, [] => none
  | i, c :: rest =>
    if hasCrtc mask i ∧ c ∉ u then some c
    else crtcScan mask u (i + 1) rest

/-- The outer encoder loop of `DeviceManager::find_crtc_for_connector`:
skip encoders `drmModeGetEncoder` fails on, return the first CRTC the
inner scan produces. -/
def encoderScan (dev : DrmDevice) (res : Resources) (u : Finset Nat) :
    List Nat → Option Nat
  | [] => none
  | e :: rest =>
    if dev.encOk e then
      match crtcScan (dev.possibleCrtcs e) u 0 res.crtcs with
      | some c => some c
      | none => encoderScan dev res u rest
    else encoderScan dev res u rest

/-- `DeviceManager::find_crtc_for_connector` (src/compositor.cpp:980-994). -/
def find_crtc_for_connector (dev : DrmDevice) (res : Resources)
    (u : Finset Nat) (cid : Nat) : Option Nat :=
  encoderScan dev res u (dev.connEncoders cid)

/-- One iteration of the connector loop in
`DeviceManager::update_connections` (src/compositor.cpp:1045-1076). -/
def processConnector (dev : DrmDevice) (res : Resources)
    (s : DeviceManager) (cid : Nat) : DeviceManager :=
  if dev.connOk cid then
    match lookupD s.displayLookup cid with
    | some crtc =>
      if dev.connected cid then s
      else ⟨eraseD s.displayLookup cid, insert crtc s.unusedCrtcs⟩
    | none =>
      if dev.connected cid then
        match find_best_mode (dev.connModes cid) with
        | none => s
        | some _mode =>
          match find_crtc_for_connector dev res s.unusedCrtcs cid with
          | none => s
          | some crtc_id =>
            if dev.createOk cid then
              ⟨(cid, crtc_id) :: s.displayLookup, s.unusedCrtcs.erase crtc_id⟩
            else s
      else s
  else s

/-- `DeviceManager::update_connections` (src/compositor.cpp:1039-1077).
The `Option Resources` argument is the result of the
`drmModeGetResources` snapshot taken at the start of the call: on `none`
the function returns with the state untouched. -/
def update_connections (dev : DrmDevice) (res : Option Resources)
    (s : DeviceManager) : DeviceManager :=
  match res with
  | none => s
  | some r => r.connectors.foldl (processConnector dev r) s

/-- The state `DeviceManager::create` builds (src/compositor.cpp:1009-1035):
an empty display map and every CRTC of the construction snapshot in
`mUnusedCrtcs`. -/
def initialState (res : Resources) : DeviceManager :=
  ⟨[], res.crtcs.toFinset⟩

/-- The set of CRTC ids currently assigned to Displays. -/
def heldCrtcs (s : DeviceManager) : Finset Nat :=
  (s.displayLookup.map Prod.snd).toFinset

/-- A sequence of `update_connections` calls, each with its own
snapshot result (possibly a failed one). -/
def runUpdates (updates : List (DrmDevice × Option Resources))
    (s : DeviceManager) : DeviceManager :=
  updates.foldl (fun s p => update_connections p.1 p.2 s) s

/-- Every successful snapshot in `updates` only reports CRTC ids that the
construction snapshot `res0` already reported. -/
def crtcsBounded (res0 : Resources)
    (updates : List (DrmDevice × Option Resources)) : Bool :=
  updates.all fun p =>
    match p.2 with
    | none => true
    | some r => r.crtcs.all (fun c => decide (c ∈ res0.crtcs))

/-- A device with one working encoder whose `possible_crtcs` mask has bit 0
set, used to exercise `find_crtc_for_connector` at concrete inputs. -/
def devC1 : DrmDevice :=
  ⟨fun _ => true, fun _ => true, fun _ => [5], fun _ => [],
   fun _ => true, fun _ => 1, fun _ => true⟩

/-- A snapshot with a single CRTC, id 7, at position 0. -/
def resC1 : Resources := ⟨[0], [7]⟩

/-- Claim C1 (code bug): with CRTC 7 at position 0, bit 0 set in the only
candidate encoder's `possible_crtcs` mask, and CRTC 7 a member of the
free set `mUnusedCrtcs`, the claim requires `find_crtc_for_connector` to
return CRTC 7; the code returns nothing, because
`bool unused = mUnusedCrtcs.find(crtc_id) == mUnusedCrtcs.end()` is the
negation of membership.  Dually, once the free set is empty (so no CRTC
is actually free) the code happily returns CRTC 7. -/
theorem find_crtc_inverted_free_test :
    find_crtc_for_connector devC1 resC1 {7} 0 = none ∧
    find_crtc_for_connector devC1 resC1 ∅ 0 = some 7 ∧
    (7 : Nat) ∈ ({7} : Finset Nat) ∧ hasCrtc 1 0 = true := by
  decide

/-- Claim C10: when the `drmModeGetResources` snapshot at the start of
`update_connections` fails, the call returns immediately and both the
display map and the free-CRTC set are unchanged. -/
theorem update_connections_failed_snapshot (dev : DrmDevice)
    (s : DeviceManager) : update_connections dev none s = s := rfl

lemma crtcScan_none_of_mem (mask : Nat) (u : Finset Nat) :
    ∀ (i : Nat) (l : List Nat), (∀ c ∈ l, c ∈ u) → crtcScan mask u i l = none
  | _, [], _ => rfl
  | i, c :: rest, h => by
    have hc : c ∈ u := h c (List.mem_cons_self _ _)
    rw [crtcScan, if_neg (fun hcond => hcond.2 hc)]
    exact crtcScan_none_of_mem mask u (i + 1) rest
      fun x hx => h x (List.mem_cons_of_mem _ hx)

lemma encoderScan_none_of_mem (dev : DrmDevice) (res : Resources)
    (u : Finset Nat) (h : ∀ c ∈ res.crtcs, c ∈ u) :
    ∀ es, encoderScan dev res u es = none
  | [] => rfl
  | e :: rest => by
    rw [encoderScan, crtcScan_none_of_mem _ _ 0 _ h]
    simp [encoderScan_none_of_mem dev res u h rest]

lemma processConnector_initial (dev : DrmDevice) (r : Resources)
    (U : Finset Nat) (h : ∀ c ∈ r.crtcs, c ∈ U) (cid : Nat) :
    processConnector dev r ⟨[], U⟩ cid = ⟨[], U⟩ := by
  unfold processConnector
  simp only [lookupD]
  rw [show find_crtc_for_connector dev r U cid = none from
    encoderScan_none_of_mem dev r U h _]
  cases find_best_mode (dev.connModes cid) <;> simp

lemma update_connections_initial (dev : DrmDevice) (res : Option Resources)
    (U : Finset Nat) (h : ∀ r, res = some r → ∀ c ∈ r.crtcs, c ∈ U) :
    update_connections dev res ⟨[], U⟩ = ⟨[], U⟩ := by
  cases res with
  | none => rfl
  | some r =>
    have h' := h r rfl
    show r.connectors.foldl (processConnector dev r) ⟨[], U⟩ = ⟨[], U⟩
    induction r.connectors with
    | nil => rfl
    | cons a t ih =>
      rw [List.foldl_cons, processConnector_initial dev r U h' a]
      exact ih

lemma runUpdates_initial (res0 : Resources) :
    ∀ (updates : List (DrmDevice × Option Resources)),
      crtcsBounded res0 updates = true →
      runUpdates updates (initialState res0) = initialState res0
  | [], _ => rfl
  | p :: rest, h => by
    have h' := h
    rw [crtcsBounded, List.all_cons, Bool.and_eq_true] at h'
    have hstep : update_connections p.1 p.2 (initialState res0)
        = initialState res0 := by
      apply update_connections_initial
      intro r hr c hc
      have h1 := h'.1
      rw [hr] at h1
      rw [List.all_eq_true] at h1
      exact List.mem_toFinset.mpr (of_decide_eq_true (h1 c hc))
    show runUpdates rest (update_connections p.1 p.2 (initialState res0))
        = initialState res0
    rw [hstep]
    exact runUpdates_initial res0 rest h'.2

/-- Claim C4: at construction and after any sequence of
`update_connections` calls whose snapshots only report CRTCs discovered
at construction, the CRTC ids held by Displays and `mUnusedCrtcs` are
disjoint and their union is the construction-time CRTC set.  (It holds
degenerately: the inverted free-CRTC test of `find_crtc_for_connector`
prevents any display from ever being created, so the display map stays
empty and the free set keeps all CRTCs.) -/
theorem device_manager_partition (res0 : Resources)
    (updates : List (DrmDevice × Option Resources))
    (h : crtcsBounded res0 updates = true) :
    Disjoint (heldCrtcs (runUpdates updates (initialState res0)))
      (runUpdates updates (initialState res0)).unusedCrtcs ∧
    heldCrtcs (runUpdates updates (initialState res0)) ∪
      (runUpdates updates (initialState res0)).unusedCrtcs
      = res0.crtcs.toFinset := by
  rw [runUpdates_initial res0 updates h]
  refine ⟨?_, ?_⟩
  · simp [heldCrtcs, initialState]
  · simp [heldCrtcs, initialState]

/-- A small concrete device for the partition witness: one connected
connector, encoder mask `0b11`, two CRTCs. -/
def devW : DrmDevice :=
  ⟨fun _ => true, fun _ => true, fun _ => [5], fun _ => [⟨1, 1, 60, 0⟩],
   fun _ => true, fun _ => 3, fun _ => true⟩

def resW : Resources := ⟨[1], [10, 11]⟩

theorem device_manager_partition_witness :
    crtcsBounded resW [(devW, some resW)] = true ∧
    (Disjoint (heldCrtcs (runUpdates [(devW, some resW)] (initialState resW)))
        (runUpdates [(devW, some resW)] (initialState resW)).unusedCrtcs ∧
      heldCrtcs (runUpdates [(devW, some resW)] (initialState resW)) ∪
        (runUpdates [(devW, some resW)] (initialState resW)).unusedCrtcs
        = resW.crtcs.toFinset) :=
  ⟨by decide, device_manager_partition resW [(devW, some resW)] (by decide)⟩

/-! ## Idempotence of reconciliation

With the device unchanged between two `update_connections` calls, the
second pass is a per-connector no-op.  The key observations: the display
map entry of a connector is only touched when that connector is
processed; and `mUnusedCrtcs` only grows during a pass (removals insert,
while the CRTC an addition erases was — by the inverted free test —
never a member, so the erase is the identity). -/

lemma lookupD_eraseD_self (d : List (Nat × Nat)) (c : Nat) :
    lookupD (eraseD d c) c = none := by
  induction d with
  | nil => rfl
  | cons p rest ih =>
    obtain ⟨k, v⟩ := p
    by_cases hp : k = c
    · simpa [eraseD, List.filter_cons, hp] using ih
    · simpa [eraseD, List.filter_cons, hp, lookupD] using ih

lemma lookupD_eraseD_ne (d : List (Nat × Nat)) (k c : Nat) (h : c ≠ k) :
    lookupD (eraseD d k) c = lookupD d c := by
  induction d with
  | nil => rfl
  | cons p rest ih =>
    obtain ⟨a, b⟩ := p
    by_cases ha : a = k
    · subst ha
      have hdrop : eraseD ((a, b) :: rest) a = eraseD rest a := by
        simp [eraseD, List.filter_cons]
      rw [hdrop, ih]
      rw [lookupD, if_neg (Ne.symm h)]
    · have hkeep : eraseD ((a, b) :: rest) k = (a, b) :: eraseD rest k := by
        simp [eraseD, List.filter_cons, ha]
      rw [hkeep, lookupD, lookupD, ih]

lemma crtcScan_none_mono (mask : Nat) (u u' : Finset Nat) (huu : u ⊆ u') :
    ∀ (i : Nat) (l : List Nat),
      crtcScan mask u i l = none → crtcScan mask u' i l = none
  | _, [], _ => rfl
  | i, c :: rest, h => by
    rw [crtcScan] at h ⊢
    by_cases hcond : hasCrtc mask i ∧ c ∉ u
    · rw [if_pos hcond] at h
      exact absurd h (by simp)
    · rw [if_neg hcond] at h
      have hcond' : ¬ (hasCrtc mask i ∧ c ∉ u') :=
        fun hc => hcond ⟨hc.1, fun hm => hc.2 (huu hm)⟩
      rw [if_neg hcond']
      exact crtcScan_none_mono mask u u' huu (i + 1) rest h

lemma crtcScan_not_mem (mask : Nat) (u : Finset Nat) :
    ∀ (i : Nat) (l : List Nat) (x : Nat),
      crtcScan mask u i l = some x → x ∉ u
  | _, [], x, h => by exact Option.noConfusion h
  | i, c :: rest, x, h => by
    rw [crtcScan] at h
    by_cases hcond : hasCrtc mask i ∧ c ∉ u
    · rw [if_pos hcond] at h
      have hcx : c = x := Option.some.inj h
      subst hcx
      exact hcond.2
    · rw [if_neg hcond] at h
      exact crtcScan_not_mem mask u (i + 1) rest x h

lemma encoderScan_none_mono (dev : DrmDevice) (res : Resources)
    (u u' : Finset Nat) (huu : u ⊆ u') :
    ∀ es, encoderScan dev res u es = none → encoderScan dev res u' es = none
  | [], _ => rfl
  | e :: rest, h => by
    rw [encoderScan] at h ⊢
    by_cases he : dev.encOk e
    · rw [if_pos he] at h ⊢
      cases hscan : crtcScan (dev.possibleCrtcs e) u 0 res.crtcs with
      | some c =>
        rw [hscan] at h
        exact Option.noConfusion h
      | none =>
        rw [hscan] at h
        rw [crtcScan_none_mono _ u u' huu 0 _ hscan]
        exact encoderScan_none_mono dev res u u' huu rest h
    · rw [if_neg he] at h ⊢
      exact encoderScan_none_mono dev res u u' huu rest h

lemma encoderScan_not_mem (dev : DrmDevice) (res : Resources)
    (u : Finset Nat) :
    ∀ es x, encoderScan dev res u es = some x → x ∉ u
  | [], x, h => by exact Option.noConfusion h
  | e :: rest, x, h => by
    rw [encoderScan] at h
    by_cases he : dev.encOk e
    · rw [if_pos he] at h
      cases hscan : crtcScan (dev.possibleCrtcs e) u 0 res.crtcs with
      | some c =>
        rw [hscan] at h
        have hcx : c = x := Option.some.inj h
        subst hcx
        exact crtcScan_not_mem _ u 0 _ c hscan
      | none =>
        rw [hscan] at h
        exact encoderScan_not_mem dev res u rest x h
    · rw [if_neg he] at h
      exact encoderScan_not_mem dev res u rest x h

lemma find_crtc_none_mono (dev : DrmDevice) (r : Resources)
    {u u' : Finset Nat} (huu : u ⊆ u') (cid : Nat)
    (h : find_crtc_for_connector dev r u cid = none) :
    find_crtc_for_connector dev r u' cid = none :=
  encoderScan_none_mono dev r u u' huu _ h

lemma find_crtc_not_mem (dev : DrmDevice) (r : Resources)
    {u : Finset Nat} {cid x : Nat}
    (h : find_crtc_for_connector dev r u cid = some x) : x ∉ u :=
  encoderScan_not_mem dev r u _ x h

lemma processConnector_unused_mono (dev : DrmDevice) (r : Resources)
    (s : DeviceManager) (cid : Nat) :
    s.unusedCrtcs ⊆ (processConnector dev r s cid).unusedCrtcs := by
  unfold processConnector
  repeat' split
  any_goals exact Finset.Subset.refl _
  any_goals exact Finset.subset_insert _ _
  rename_i x hfind _
  rw [Finset.erase_eq_of_not_mem (find_crtc_not_mem dev r hfind)]

lemma processConnector_lookup_ne (dev : DrmDevice) (r : Resources)
    (s : DeviceManager) (cid c : Nat) (h : c ≠ cid) :
    lookupD (processConnector dev r s cid).displayLookup c
      = lookupD s.displayLookup c := by
  unfold processConnector
  repeat' split
  any_goals rfl
  · exact lookupD_eraseD_ne _ _ _ h
  · rw [lookupD, if_neg (Ne.symm h)]

/-- A connector `cid` is a no-op for `processConnector` in state `s` (and
remains one as the reconciliation pass continues).  The six disjuncts
mirror the exits of the connector loop body. -/
def stablePoint (dev : DrmDevice) (r : Resources) (cid : Nat)
    (s : DeviceManager) : Prop :=
  dev.connOk cid = false
  ∨ ((∃ x, lookupD s.displayLookup cid = some x) ∧ dev.connected cid = true)
  ∨ (lookupD s.displayLookup cid = none ∧ dev.connected cid = false)
  ∨ (lookupD s.displayLookup cid = none
      ∧ find_best_mode (dev.connModes cid) = none)
  ∨ (lookupD s.displayLookup cid = none ∧ dev.createOk cid = false)
  ∨ (lookupD s.displayLookup cid = none
      ∧ ∀ u', s.unusedCrtcs ⊆ u'
          → find_crtc_for_connector dev r u' cid = none)

lemma stablePoint_fix {dev : DrmDevice} {r : Resources} {cid : Nat}
    {s : DeviceManager} (h : stablePoint dev r cid s) :
    processConnector dev r s cid = s := by
  unfold processConnector
  rcases h with h | ⟨⟨x, hx⟩, hc⟩ | ⟨hl, hc⟩ | ⟨hl, hm⟩ | ⟨hl, hk⟩ | ⟨hl, hf⟩
  · simp [h]
  · simp [hx, hc]
  · simp [hl, hc]
  · simp [hl, hm]
  · cases hfbm : find_best_mode (dev.connModes cid) with
    | none => simp [hl, hfbm]
    | some m =>
      cases hfind : find_crtc_for_connector dev r s.unusedCrtcs cid with
      | none => simp [hl, hfbm, hfind]
      | some x => simp [hl, hfbm, hfind, hk]
  · have hfind := hf s.unusedCrtcs (Finset.Subset.refl _)
    cases hfbm : find_best_mode (dev.connModes cid) with
    | none => simp [hl, hfbm]
    | some m => simp [hl, hfbm, hfind]

lemma stablePoint_establish (dev : DrmDevice) (r : Resources)
    (s : DeviceManager) (cid : Nat) :
    stablePoint dev r cid (processConnector dev r s cid) := by
  by_cases hok : dev.connOk cid = true
  case neg =>
    rw [Bool.not_eq_true] at hok
    exact Or.inl hok
  case pos =>
    cases hl : lookupD s.displayLookup cid with
    | some x =>
      by_cases hc : dev.connected cid = true
      · have hstep : processConnector dev r s cid = s := by
          unfold processConnector; simp [hok, hl, hc]
        rw [hstep]
        exact Or.inr (Or.inl ⟨⟨x, hl⟩, hc⟩)
      · rw [Bool.not_eq_true] at hc
        have hstep : processConnector dev r s cid
            = ⟨eraseD s.displayLookup cid, insert x s.unusedCrtcs⟩ := by
          unfold processConnector; simp [hok, hl, hc]
        rw [hstep]
        exact Or.inr (Or.inr (Or.inl ⟨lookupD_eraseD_self _ _, hc⟩))
    | none =>
      by_cases hc : dev.connected cid = true
      case neg =>
        rw [Bool.not_eq_true] at hc
        have hstep : processConnector dev r s cid = s := by
          unfold processConnector; simp [hok, hl, hc]
        rw [hstep]
        exact Or.inr (Or.inr (Or.inl ⟨hl, hc⟩))
      case pos =>
        cases hfbm : find_best_mode (dev.connModes cid) with
        | none =>
          have hstep : processConnector dev r s cid = s := by
            unfold processConnector; simp [hok, hl, hc, hfbm]
          rw [hstep]
          exact Or.inr (Or.inr (Or.inr (Or.inl ⟨hl, hfbm⟩)))
        | some m =>
          cases hfind : find_crtc_for_connector dev r s.unusedCrtcs cid with
          | none =>
            by_cases hk : dev.createOk cid = true
            · have hstep : processConnector dev r s cid = s := by
                unfold processConnector; simp [hok, hl, hc, hfbm, hfind]
              rw [hstep]
              refine Or.inr (Or.inr (Or.inr (Or.inr (Or.inr ⟨hl, ?_⟩))))
              intro u' hu
              exact find_crtc_none_mono dev r hu cid hfind
            · rw [Bool.not_eq_true] at hk
              have hstep : processConnector dev r s cid = s := by
                unfold processConnector; simp [hok, hl, hc, hfbm, hfind, hk]
              rw [hstep]
              exact Or.inr (Or.inr (Or.inr (Or.inr (Or.inl ⟨hl, hk⟩))))
          | some x =>
            by_cases hk : dev.createOk cid = true
            · have hstep : processConnector dev r s cid
                  = ⟨(cid, x) :: s.displayLookup,
                     s.unusedCrtcs.erase x⟩ := by
                unfold processConnector; simp [hok, hl, hc, hfbm, hfind, hk]
              rw [hstep]
              refine Or.inr (Or.inl ⟨⟨x, ?_⟩, hc⟩)
              rw [lookupD, if_pos rfl]
            · rw [Bool.not_eq_true] at hk
              have hstep : processConnector dev r s cid = s := by
                unfold processConnector; simp [hok, hl, hc, hfbm, hfind, hk]
              rw [hstep]
              exact Or.inr (Or.inr (Or.inr (Or.inr (Or.inl ⟨hl, hk⟩))))

lemma stablePoint_preserved {dev : DrmDevice} {r : Resources} {cid : Nat}
    {s : DeviceManager} (h : stablePoint dev r cid s) (cid' : Nat) :
    stablePoint dev r cid (processConnector dev r s cid') := by
  by_cases hcc : cid = cid'
  · subst hcc
    exact stablePoint_establish dev r s cid
  · have hlook := processConnector_lookup_ne dev r s cid' cid hcc
    have hmono := processConnector_unused_mono dev r s cid'
    rcases h with h | ⟨⟨x, hx⟩, hc⟩ | ⟨hl, hc⟩ | ⟨hl, hm⟩ | ⟨hl, hk⟩ | ⟨hl, hf⟩
    · exact Or.inl h
    · exact Or.inr (Or.inl ⟨⟨x, by rw [hlook]; exact hx⟩, hc⟩)
    · exact Or.inr (Or.inr (Or.inl ⟨by rw [hlook]; exact hl, hc⟩))
    · exact Or.inr (Or.inr (Or.inr (Or.inl ⟨by rw [hlook]; exact hl, hm⟩)))
    · exact Or.inr (Or.inr (Or.inr (Or.inr (Or.inl
        ⟨by rw [hlook]; exact hl, hk⟩))))
    · refine Or.inr (Or.inr (Or.inr (Or.inr (Or.inr
        ⟨by rw [hlook]; exact hl, ?_⟩))))
      intro u' hu
      exact hf u' (Finset.Subset.trans hmono hu)

lemma stablePoint_foldl {dev : DrmDevice} {r : Resources} {cid : Nat} :
    ∀ (l : List Nat) (s : DeviceManager), stablePoint dev r cid s →
      stablePoint dev r cid (l.foldl (processConnector dev r) s)
  | [], _, h => h
  | a :: t, _s, h => stablePoint_foldl t _ (stablePoint_preserved h a)

lemma stablePoint_mem_foldl {dev : DrmDevice} {r : Resources} :
    ∀ (l : List Nat) (s : DeviceManager) (cid : Nat), cid ∈ l →
      stablePoint dev r cid (l.foldl (processConnector dev r) s)
  | [], _, _, h => absurd h (List.not_mem_nil _)
  | a :: t, s, cid, h => by
    rcases List.mem_cons.mp h with rfl | hmem
    · exact stablePoint_foldl t _ (stablePoint_establish dev r s cid)
    · exact stablePoint_mem_foldl t _ cid hmem

lemma foldl_fix {dev : DrmDevice} {r : Resources} (s : DeviceManager) :
    ∀ (l : List Nat), (∀ c ∈ l, processConnector dev r s c = s) →
      l.foldl (processConnector dev r) s = s
  | [], _ => rfl
  | a :: t, h => by
    show t.foldl (processConnector dev r) (processConnector dev r s a) = s
    rw [h a (List.mem_cons_self _ _)]
    exact foldl_fix s t fun c hc => h c (List.mem_cons_of_mem _ hc)

/-- Claim C9: with the device state unchanged (same snapshot result, same
per-id query answers, same `Display::create` outcomes), a second
`update_connections` call leaves the display map and the free-CRTC set
exactly as the first call left them, from any starting state. -/
theorem update_connections_idempotent (dev : DrmDevice)
    (res : Option Resources) (s : DeviceManager) :
    update_connections dev res (update_connections dev res s)
      = update_connections dev res s := by
  cases res with
  | none => rfl
  | some r =>
    show r.connectors.foldl (processConnector dev r)
        (r.connectors.foldl (processConnector dev r) s)
      = r.connectors.foldl (processConnector dev r) s
    apply foldl_fix
    intro c hc
    exact stablePoint_fix (stablePoint_mem_foldl r.connectors s c hc)

/-! ## Display: buffer slots and the page-flip cycle

`gbm::FrontBuffer::Handle` holds two raw pointers (`gbm_surface*`,
`gbm_bo*`, modelled as naturals with `0` for `nullptr`).  Its copy
operations are deleted, its move operations are `= default` — i.e. they
copy the two pointers and leave the source unchanged — and its destructor
always calls `gbm_surface_release_buffer(mSurface, mBuffer)`.  The member
functions below are embedded together with the list of release calls
they perform, in order. -/

/-- The pointer pair inside `gbm::FrontBuffer::Handle`. -/
structure FrontBuffer where
  surface : Nat
  buffer : Nat
deriving DecidableEq, Repr

/-- `Handle::operator bool`: both pointers non-null. -/
def FrontBuffer.isSome (f : FrontBuffer) : Prop :=
  f.surface ≠ 0 ∧ f.buffer ≠ 0

instance (f : FrontBuffer) : Decidable f.isSome :=
  inferInstanceAs (Decidable (f.surface ≠ 0 ∧ f.buffer ≠ 0))

/-- `gbm::FrontBuffer::create` via `Surface::lock_front_buffer`:
`lockResult` is the `gbm_bo*` returned by
`gbm_surface_lock_front_buffer`; on `nullptr` a default-constructed
(null) `FrontBuffer` is returned. -/
def FrontBuffer.create (surface : Nat) (lockResult : Option Nat) :
    FrontBuffer :=
  match lockResult with
  | none => ⟨0, 0⟩
  | some b => ⟨surface, b⟩

/-- A call into the GBM library that the claims observe. -/
inductive GbmEvent where
  | releaseBuffer (surface : Nat) (buffer : Nat)
deriving DecidableEq, Repr

/-- The state of one `Display` (src/compositor.cpp:862-967): its GBM
surface pointer, assigned CRTC, the two buffer slots and the page-flip
flag.  (`mThreadID` and the EGL context are not represented: the model is
single-threaded and GL calls are not observed by the claims.) -/
structure DisplayState where
  surface : Nat
  crtcID : Nat
  currentFrontBuffer : FrontBuffer
  nextFrontBuffer : FrontBuffer
  waitingForPageFlip : Bool
deriving DecidableEq, Repr

/-- `Display::operator bool` (the thread-identity conjunct is outside the
single-threaded model): the GBM surface handle is live. -/
def DisplayState.valid (s : DisplayState) : Prop := s.surface ≠ 0

instance (s : DisplayState) : Decidable s.valid :=
  inferInstanceAs (Decidable (s.surface ≠ 0))

/-- Outcomes of the external calls made by `Display::set_mode`:
`gbm_surface_lock_front_buffer`, `ensure_framebuffer`,
`drmModeSetCrtc`. -/
structure SetModeOutcome where
  lockBuf : Option Nat
  fbOk : Bool
  modeOk : Bool
deriving DecidableEq, Repr

/-- `Display::set_mode` (src/compositor.cpp:912-932).  The local `front`
is destroyed on every path; since the defaulted move operations of
`Handle` do not null the source, its destructor releases its (possibly
just-installed) pointer pair on every path, including success. -/
def Display.set_mode (s : DisplayState) (o : SetModeOutcome) :
    DisplayState × Bool × List GbmEvent :=
  let front := FrontBuffer.create s.surface o.lockBuf
  if front.isSome then
    if o.fbOk then
      if o.modeOk then
        ({ s with currentFrontBuffer := front }, true,
         [GbmEvent.releaseBuffer front.surface front.buffer])
      else (s, false, [GbmEvent.releaseBuffer front.surface front.buffer])
    else (s, false, [GbmEvent.releaseBuffer front.surface front.buffer])
  else (s, false, [GbmEvent.releaseBuffer front.surface front.buffer])

/-- Outcomes of the external calls made by `Display::begin_swap_buffers`:
lock, `ensure_framebuffer`, `drmModePageFlip`. -/
structure BeginSwapOutcome where
  lockBuf : Option Nat
  fbOk : Bool
  flipOk : Bool
deriving DecidableEq, Repr

/-- `Display::begin_swap_buffers` (src/compositor.cpp:934-949).
`drm::begin_page_flip` sets `mWaitingForPageFlip` only on success and
leaves it untouched on rejection; the local `front` is destroyed (and
hence released) on every path. -/
def Display.begin_swap_buffers (s : DisplayState) (o : BeginSwapOutcome) :
    DisplayState × Bool × List GbmEvent :=
  let front := FrontBuffer.create s.surface o.lockBuf
  if front.isSome then
    if o.fbOk then
      if o.flipOk then
        ({ s with waitingForPageFlip := true, nextFrontBuffer := front },
         true, [GbmEvent.releaseBuffer front.surface front.buffer])
      else (s, false, [GbmEvent.releaseBuffer front.surface front.buffer])
    else (s, false, [GbmEvent.releaseBuffer front.surface front.buffer])
  else (s, false, [GbmEvent.releaseBuffer front.surface front.buffer])

/-- `Display::finish_swap_buffers` (src/compositor.cpp:962-966):
`mCurrentFrontBuffer = std::move(mNextFrontBuffer)` with the defaulted
member-wise move — the pointer pair is copied, the source slot keeps its
value, no destructor runs and no buffer is released. -/
def Display.finish_swap_buffers (s : DisplayState) :
    DisplayState × List GbmEvent :=
  ({ s with currentFrontBuffer := s.nextFrontBuffer }, [])

/-- `Display::handle_event` via `drm::handle_event`
(src/compositor.cpp:956-960, 318-340): if a page-flip completion event
for this display is read, the handler clears `mWaitingForPageFlip`. -/
def Display.handle_event (s : DisplayState) (flipCompleted : Bool) :
    DisplayState :=
  if flipCompleted then { s with waitingForPageFlip := false } else s

/-- A display on surface 1 with `current_slot = (surface 1, bo 2)`,
`pending_slot = (surface 1, bo 3)` and no flip in flight (e.g. right
after a flip completed). -/
def finishState : DisplayState := ⟨1, 0, ⟨1, 2⟩, ⟨1, 3⟩, false⟩

/-- Claim C2 (code bug): `finish_swap_buffers` performs no
`gbm_surface_release_buffer` call at all (the buffer that was in
`current_slot` is never released), and `pending_slot` still holds the
promoted buffer afterwards instead of being left empty. -/
theorem finish_swap_buffers_no_release :
    Display.finish_swap_buffers finishState
      = ({ finishState with currentFrontBuffer := ⟨1, 3⟩ },
         ([] : List GbmEvent)) ∧
    (Display.finish_swap_buffers finishState).1.nextFrontBuffer = ⟨1, 3⟩ := by
  decide

/-- Claim C3 counterpart (code bug): a fresh display on surface 1, about
to run its first successful `set_mode`. -/
def setModeState : DisplayState := ⟨1, 0, ⟨0, 0⟩, ⟨0, 0⟩, false⟩

/-- Claim C3 (code bug): a fully successful `set_mode` installs the locked
buffer `(surface 1, bo 2)` as `current_slot` and, in the same call,
releases that very buffer back to its surface (the destructor of the
moved-from temporary, whose defaulted move left the pointers intact). -/
theorem set_mode_releases_current_slot_buffer :
    Display.set_mode setModeState ⟨some 2, true, true⟩
      = ({ setModeState with currentFrontBuffer := ⟨1, 2⟩ }, true,
         [GbmEvent.releaseBuffer 1 2]) := by
  decide

/-- Claim C7: if the lock and framebuffer steps succeed but
`drmModePageFlip` is rejected, `begin_swap_buffers` returns `false`, the
newly locked buffer is released back to the surface exactly once, and the
state — in particular `pending_slot` and `flip_in_flight` — is unchanged
(so `flip_in_flight` stays `false`). -/
theorem begin_swap_buffers_flip_rejected (s : DisplayState) (b : Nat)
    (hs : s.surface ≠ 0) (hb : b ≠ 0)
    (hw : s.waitingForPageFlip = false) :
    Display.begin_swap_buffers s ⟨some b, true, false⟩
        = (s, false, [GbmEvent.releaseBuffer s.surface b]) ∧
    (Display.begin_swap_buffers s ⟨some b, true, false⟩).1.waitingForPageFlip
        = false := by
  have hres : Display.begin_swap_buffers s ⟨some b, true, false⟩
      = (s, false, [GbmEvent.releaseBuffer s.surface b]) := by
    unfold Display.begin_swap_buffers
    rw [if_pos]
    · rfl
    · exact ⟨hs, hb⟩
  exact ⟨hres, by rw [hres]; exact hw⟩

theorem begin_swap_buffers_flip_rejected_witness :
    (1 : Nat) ≠ 0 ∧ (4 : Nat) ≠ 0 ∧
    (Display.begin_swap_buffers finishState ⟨some 4, true, false⟩
        = (finishState, false, [GbmEvent.releaseBuffer 1 4]) ∧
      (Display.begin_swap_buffers finishState
          ⟨some 4, true, false⟩).1.waitingForPageFlip = false) :=
  ⟨by decide, by decide,
   begin_swap_buffers_flip_rejected finishState 4 (by decide) (by decide)
     (by decide)⟩

/-- Claim C8: if `set_mode` fails after locking the first front buffer —
either `ensure_framebuffer` fails or the kernel rejects the CRTC
mode-set — the call returns failure, the locked buffer is released back
to the surface before returning, and `current_slot` (indeed the whole
state) is unchanged. -/
theorem set_mode_failure_releases_buffer (s : DisplayState) (b : Nat)
    (fbOk modeOk : Bool) (hs : s.surface ≠ 0) (hb : b ≠ 0)
    (hfail : fbOk = false ∨ modeOk = false) :
    Display.set_mode s ⟨some b, fbOk, modeOk⟩
      = (s, false, [GbmEvent.releaseBuffer s.surface b]) := by
  unfold Display.set_mode
  rw [if_pos ⟨hs, hb⟩]
  rcases hfail with hf | hm
  · rw [hf]
    rfl
  · rw [hm]
    cases fbOk <;> rfl

theorem set_mode_failure_releases_buffer_witness :
    (1 : Nat) ≠ 0 ∧ (5 : Nat) ≠ 0 ∧ ((false = false ∨ true = false)) ∧
    Display.set_mode finishState ⟨some 5, false, true⟩
      = (finishState, false, [GbmEvent.releaseBuffer 1 5]) :=
  ⟨by decide, by decide, Or.inl rfl,
   set_mode_failure_releases_buffer finishState 5 false true (by decide)
     (by decide) (Or.inl rfl)⟩

/-! ## Call sequences on one Display

To talk about "the number of `begin_flip` calls without a matching flip
completion", the four public operations are packaged as `DispOp` and run
over a list.  `opAssert` records whether the `assert(...)` statements at
each call site hold, `opOutstanding` is the ghost count of kernel-accepted
page flips not yet completed. -/

inductive DispOp where
  | setMode (o : SetModeOutcome)
  | beginSwap (o : BeginSwapOutcome)
  | finishSwap
  | handleEvent (flipCompleted : Bool)
deriving DecidableEq, Repr

/-- The `assert` statements guarding each member function:
`set_mode` asserts `*this`; `begin_swap_buffers` asserts
`*this && mCurrentFrontBuffer` (note: NOT `!mWaitingForPageFlip`);
`finish_swap_buffers` asserts `*this` and `!mWaitingForPageFlip`;
`handle_event` asserts `*this` and `mWaitingForPageFlip`. -/
def opAssert (s : DisplayState) : DispOp → Bool
  | .setMode _ => decide s.valid
  | .beginSwap _ => decide s.valid && decide s.currentFrontBuffer.isSome
  | .finishSwap => decide s.valid && !s.waitingForPageFlip
  | .handleEvent _ => decide s.valid && s.waitingForPageFlip

def opStep (s : DisplayState) : DispOp → DisplayState
  | .setMode o => (Display.set_mode s o).1
  | .beginSwap o => (Display.begin_swap_buffers s o).1
  | .finishSwap => (Display.finish_swap_buffers s).1
  | .handleEvent c => Display.handle_event s c

/-- Ghost counter: `drmModePageFlip` acceptances minus completions
delivered. -/
def opOutstanding (s : DisplayState) (n : Nat) : DispOp → Nat
  | .beginSwap o => if (Display.begin_swap_buffers s o).2.1 then n + 1 else n
  | .handleEvent c => if c then n - 1 else n
  | _ => n

def execCount : DisplayState → Nat → List DispOp → DisplayState × Nat
  | s, n, [] => (s, n)
  | s, n, op :: rest => execCount (opStep s op) (opOutstanding s n op) rest

def execAsserts : DisplayState → List DispOp → Bool
  | _, [] => true
  | s, op :: rest => opAssert s op && execAsserts (opStep s op) rest

/-- The caller discipline the spec demands but the code does not check:
`begin_swap_buffers` is only invoked when no flip is in flight. -/
def opDisciplineOk (s : DisplayState) : DispOp → Bool
  | DispOp.beginSwap _ => !s.waitingForPageFlip
  | _ => true

def disciplined : DisplayState → List DispOp → Bool
  | _, [] => true
  | s, op :: rest => opDisciplineOk s op && disciplined (opStep s op) rest

/-- Two back-to-back fully successful `begin_swap_buffers` calls. -/
def doubleFlipOps : List DispOp :=
  [DispOp.beginSwap ⟨some 3, true, true⟩,
   DispOp.beginSwap ⟨some 4, true, true⟩]

/-- Claim C5 counterexample: starting from a display with a scanned-out
buffer and no flip in flight, two successive `begin_swap_buffers` calls
both pass every `assert` the code contains (the second runs while a flip
is in flight, because the precondition `¬flip_in_flight` is not checked)
and both page flips are accepted, so the number of accepted-but-not-yet
completed flips reaches two. -/
theorem begin_swap_double_flip_counterexample :
    execAsserts finishState doubleFlipOps = true ∧
    (execCount finishState 0 doubleFlipOps).2 = 2 ∧
    (opStep finishState
        (DispOp.beginSwap ⟨some 3, true, true⟩)).waitingForPageFlip
      = true := by
  decide

lemma set_mode_waiting (s : DisplayState) (o : SetModeOutcome) :
    ((Display.set_mode s o).1).waitingForPageFlip
      = s.waitingForPageFlip := by
  simp only [Display.set_mode]
  by_cases hf : (FrontBuffer.create s.surface o.lockBuf).isSome
  · rw [if_pos hf]
    cases o.fbOk
    · rfl
    · cases o.modeOk <;> rfl
  · rw [if_neg hf]

lemma begin_swap_waiting (s : DisplayState) (o : BeginSwapOutcome)
    (hw : s.waitingForPageFlip = false) :
    ((Display.begin_swap_buffers s o).1).waitingForPageFlip
      = (Display.begin_swap_buffers s o).2.1 := by
  simp only [Display.begin_swap_buffers]
  by_cases hf : (FrontBuffer.create s.surface o.lockBuf).isSome
  · rw [if_pos hf]
    cases o.fbOk
    · exact hw
    · cases o.flipOk
      · exact hw
      · rfl
  · rw [if_neg hf]
    exact hw

lemma opOutstanding_inv (s : DisplayState) (n : Nat) (op : DispOp)
    (hn : n = (if s.waitingForPageFlip then 1 else 0))
    (hdisc : opDisciplineOk s op = true) :
    opOutstanding s n op
      = (if (opStep s op).waitingForPageFlip then 1 else 0) := by
  cases op with
  | setMode o =>
    show n = (if ((Display.set_mode s o).1).waitingForPageFlip
      then 1 else 0)
    rw [set_mode_waiting]
    exact hn
  | beginSwap o =>
    have hw : s.waitingForPageFlip = false := by
      simpa [opDisciplineOk] using hdisc
    show (if (Display.begin_swap_buffers s o).2.1 then n + 1 else n)
        = (if ((Display.begin_swap_buffers s o).1).waitingForPageFlip
          then 1 else 0)
    rw [begin_swap_waiting s o hw, hn, hw]
    cases (Display.begin_swap_buffers s o).2.1 <;> simp
  | finishSwap => exact hn
  | handleEvent c =>
    cases c with
    | false => exact hn
    | true =>
      show n - 1 = 0
      rw [hn]
      cases s.waitingForPageFlip <;> simp

lemma execCount_inv :
    ∀ (ops : List DispOp) (s : DisplayState) (n : Nat),
      n = (if s.waitingForPageFlip then 1 else 0) →
      disciplined s ops = true →
      ∀ k, (execCount s n (ops.take k)).2
        = (if (execCount s n (ops.take k)).1.waitingForPageFlip
          then 1 else 0)
  | [], _, _, hn, _, k => by
    rw [List.take_nil]
    exact hn
  | op :: rest, s, n, hn, hd, 0 => by
    rw [List.take_zero]
    exact hn
  | op :: rest, s, n, hn, hd, k + 1 => by
    rw [List.take_succ_cons]
    rw [disciplined, Bool.and_eq_true] at hd
    exact execCount_inv rest (opStep s op) (opOutstanding s n op)
      (opOutstanding_inv s n op hn hd.1) hd.2 k

/-- Claim C5 (amended): `begin_swap_buffers` asserts only display validity
and a nonempty `current_slot`; it does not check `flip_in_flight`.  For
every call sequence that starts with no flip in flight and invokes
`begin_swap_buffers` only when no flip is in flight, the number of
accepted page flips without a delivered completion never exceeds one at
any point of the sequence. -/
theorem begin_swap_disciplined_at_most_one (s0 : DisplayState)
    (ops : List DispOp) (h0 : s0.waitingForPageFlip = false)
    (hd : disciplined s0 ops = true) :
    ∀ k, (execCount s0 0 (ops.take k)).2 ≤ 1 := by
  intro k
  rw [execCount_inv ops s0 0 (by rw [h0]; rfl) hd k]
  split
  · exact Nat.le_refl 1
  · exact Nat.zero_le 1

/-- A disciplined three-call sequence: flip, completion, flip. -/
def disciplinedOps : List DispOp :=
  [DispOp.beginSwap ⟨some 3, true, true⟩, DispOp.handleEvent true,
   DispOp.beginSwap ⟨some 4, true, true⟩]

theorem begin_swap_disciplined_at_most_one_witness :
    finishState.waitingForPageFlip = false ∧
    disciplined finishState disciplinedOps = true ∧
    ∀ k, (execCount finishState 0 (disciplinedOps.take k)).2 ≤ 1 :=
  ⟨by decide, by decide,
   begin_swap_disciplined_at_most_one finishState disciplinedOps
     (by decide) (by decide)⟩

end Waypositor
